import Mathlib

/-!
Verification development for the pandas-based data-cleaning engine
(`src/engines/cleaner.py`).  Tables are modelled as named columns of
scalar cells; every operation of the cleaning engine is embedded as an
executable Lean function translated statement by statement from the
Python source.  The mutating operations are additionally embedded as
small imperative programs over an explicit two-variable environment
(the frame `df` of the caller and the private copy `df_clean`) so that the
copy-on-write discipline of the source is a provable property rather
than a modelling artefact.
-/

/-- A scalar cell of a table: text, rational number, date, or null
(pandas NaN / None / NaT are collapsed into one null). -/
inductive Cell where
  | str (s : String)
  | num (q : ℚ)
  | date (y m d : Nat)
  | null
deriving DecidableEq

/-- A table: an ordered association list of named columns. -/
structure Table where
  cols : List (String × List Cell)
deriving DecidableEq

/-- `len(df)`: the number of rows (length of the first column). -/
def Table.rowCount (t : Table) : Nat :=
  match t.cols with
  | [] => 0
  | p :: _ => p.2.length

/-- Well-formedness: all columns have the row count. -/
def Table.uniform (t : Table) : Prop :=
  ∀ p ∈ t.cols, p.2.length = t.rowCount

def lookupCol : List (String × List Cell) → String → Option (List Cell)
  | [], _ => none
  | p :: ps, c => if p.1 = c then some p.2 else lookupCol ps c

/-- `df[column]`: the cells of the named column, if present. -/
def Table.getCol (t : Table) (c : String) : Option (List Cell) :=
  lookupCol t.cols c

/-- `df[column] = cells`: overwrite the named column. -/
def Table.setCol (t : Table) (c : String) (l : List Cell) : Table :=
  ⟨t.cols.map (fun p => if p.1 = c then (p.1, l) else p)⟩

/-- A single-quote character, for building the error strings of the source. -/
def sQuote : String := String.singleton (Char.ofNat 39)

/-- `str(value)` as applied by `astype(str)`: a text cell is itself, a
float NaN prints as `nan`; numbers and dates get a best-effort decimal
rendering (no claim evaluates these). -/
def pyStr : Cell → String
  | .str s => s
  | .null => "nan"
  | .num q => if q.den = 1 then toString q.num ++ ".0" else toString q.num ++ "/" ++ toString q.den
  | .date y m d => toString y ++ "-" ++ toString m ++ "-" ++ toString d ++ " 00:00:00"

/-- `_generate_skeleton` from `cleaner.py`: `None`/NaN input yields the
sentinel `"NULO"`; otherwise `re.sub(r'\d','N',·)` followed by
`re.sub(r'[a-zA-Z]','A',·)`, exactly in that order (so the `N` markers
written by the first substitution are letters and are rewritten by the
second one). -/
def _generate_skeleton : Option String → String
  | none => "NULO"
  | some t =>
    let t1 := t.data.map (fun c => if c.isDigit then 'N' else c)
    String.mk (t1.map (fun c => if c.isAlpha then 'A' else c))


/-- `[a-zA-Z0-9]` as tested by the token regex of the source. -/
def isTok (c : Char) : Bool := c.isAlphanum

def tokensAux : List Char → List Char → List String
  | [], acc => if acc.isEmpty then [] else [String.mk acc.reverse]
  | c :: cs, acc =>
    if isTok c then tokensAux cs (c :: acc)
    else if acc.isEmpty then tokensAux cs []
    else String.mk acc.reverse :: tokensAux cs []

/-- `re.findall` of the token class `[a-zA-Z0-9]+`: the maximal alphanumeric runs. -/
def findTokens (s : String) : List String := tokensAux s.data []

/-- The characters escaped by `re.escape` (Python ≥ 3.7). -/
def reSpecial : List Char :=
  ['(', ')', '[', ']', '\x7b', '\x7d', '?', '*', '+', '-', '|', '^', '$',
   '\\', '.', '&', '~', '#', ' ', '\t', '\n', '\r', '\x0b', '\x0c']

/-- `re.escape`. -/
def reEscape (s : String) : String :=
  String.mk ((s.data.map (fun c => if c ∈ reSpecial then ['\\', c] else [c])).flatten)

def startsWithL : List Char → List Char → Bool
  | _, [] => true
  | [], _ :: _ => false
  | a :: as, b :: bs => a = b && startsWithL as bs

/-- Python `s.replace(old, new, 1)`: replace the first occurrence only. -/
def replaceFirstL (old new : List Char) : List Char → List Char
  | [] => if old = [] then new else []
  | c :: cs =>
    if startsWithL (c :: cs) old then new ++ (c :: cs).drop old.length
    else c :: replaceFirstL old new cs

def replaceFirst (s old new : String) : String :=
  String.mk (replaceFirstL old.data new.data s.data)

/-- The capture placeholder spliced into the pattern by the source. -/
def capPH : String := "([a-zA-Z0-9]+)"

/-- The matching pattern of `standardize_by_example`: `re.escape` of the
before-example with the first occurrence of each token replaced by the
capture placeholder, in token order. -/
def buildPatternStr (origin : String) (tokens : List String) : String :=
  tokens.foldl (fun acc tok => replaceFirst acc (reEscape tok) capPH) (reEscape origin)

/-- The replacement template: the after-example with the first occurrence
of each token replaced by the 1-indexed back-reference. -/
def buildReplStr (target : String) (tokens : List String) : String :=
  (tokens.enum).foldl
    (fun acc p => replaceFirst acc p.2 ("\\g<" ++ toString (p.1 + 1) ++ ">")) target

/-- A parsed element of the synthesized pattern: a literal character or a
`([a-zA-Z0-9]+)` capture group. -/
inductive Seg where
  | lit (c : Char)
  | cap
deriving DecidableEq

def parseSegsF : Nat → List Char → List Seg
  | 0, _ => []
  | _ + 1, [] => []
  | f + 1, c :: cs =>
    if startsWithL (c :: cs) capPH.data then Seg.cap :: parseSegsF f ((c :: cs).drop capPH.data.length)
    else if c = '\\' then
      match cs with
      | d :: ds => Seg.lit d :: parseSegsF f ds
      | [] => [Seg.lit '\\']
    else Seg.lit c :: parseSegsF f cs

/-- Parse the synthesized pattern string into literal/capture segments. -/
def parseSegs (l : List Char) : List Seg := parseSegsF l.length l

/-- A parsed element of the replacement template: a literal character or a
`\g<n>` back-reference. -/
inductive RSeg where
  | rlit (c : Char)
  | ref (n : Nat)
deriving DecidableEq

def digitsToNat (ds : List Char) : Nat := ds.foldl (fun a c => 10 * a + (c.toNat - 48)) 0

def parseReplF : Nat → List Char → List RSeg
  | 0, _ => []
  | _ + 1, [] => []
  | f + 1, c :: cs =>
    if startsWithL (c :: cs) ['\\', 'g', '<'] then
      let rest := cs.drop 2
      let ds := rest.takeWhile Char.isDigit
      match rest.drop ds.length with
      | '>' :: tail =>
        if ds = [] then RSeg.rlit c :: parseReplF f cs
        else RSeg.ref (digitsToNat ds) :: parseReplF f tail
      | _ => RSeg.rlit c :: parseReplF f cs
    else RSeg.rlit c :: parseReplF f cs

def parseRepl (l : List Char) : List RSeg := parseReplF l.length l

/-- Backtracking matcher for a parsed pattern at the head of the input:
greedy one-or-more alphanumeric captures, exactly as Python `re` matches
the synthesized `([a-zA-Z0-9]+)` groups.  Returns captured groups and
the unconsumed suffix. -/
def matchSeq : List Seg → List Char → Option (List String × List Char)
  | [], cs => some ([], cs)
  | Seg.lit _ :: _, [] => none
  | Seg.lit ch :: rest, d :: ds => if d = ch then matchSeq rest ds else none
  | Seg.cap :: rest, cs =>
    let run := cs.takeWhile isTok
    (List.range run.length).reverse.findSome? (fun j =>
      match matchSeq rest (cs.drop (j + 1)) with
      | some (gs, r) => some (String.mk (cs.take (j + 1)) :: gs, r)
      | none => none)

/-- Expand the replacement template with the captured groups. -/
def expandRepl (gs : List String) (rsegs : List RSeg) : List Char :=
  (rsegs.map (fun r =>
    match r with
    | RSeg.rlit c => [c]
    | RSeg.ref n => (gs.get? (n - 1)).getD "" |>.data)).flatten

/-- `re.sub` scanning: try the pattern at every position left to right,
replacing each non-overlapping match. -/
def subAll (segs : List Seg) (rsegs : List RSeg) : Nat → List Char → List Char
  | 0, cs => cs
  | _ + 1, [] =>
    match matchSeq segs [] with
    | some (gs, _) => expandRepl gs rsegs
    | none => []
  | f + 1, c :: cs =>
    match matchSeq segs (c :: cs) with
    | some (gs, rest) =>
      if rest.length = (c :: cs).length then expandRepl gs rsegs ++ c :: subAll segs rsegs f cs
      else expandRepl gs rsegs ++ subAll segs rsegs f rest
    | none => c :: subAll segs rsegs f cs

/-- `str.replace(pattern, repl, regex=True)` on one string. -/
def pySub (patStr replStr s : String) : String :=
  String.mk (subAll (parseSegs patStr.data) (parseRepl replStr.data) (s.data.length + 1) s.data)


/-- `float(s)` / `pd.to_numeric(s, errors=coerce)` on one string:
optional surrounding whitespace, optional sign, digits with an optional
fractional part (at least one digit overall), optional exponent. -/
def parseNum? (s : String) : Option ℚ :=
  let l := (s.data.dropWhile Char.isWhitespace).reverse.dropWhile Char.isWhitespace |>.reverse
  let sgnL : ℚ × List Char :=
    match l with
    | '+' :: t => (1, t)
    | '-' :: t => (-1, t)
    | t => (1, t)
  let sgn := sgnL.1
  let l1 := sgnL.2
  let ip := l1.takeWhile Char.isDigit
  let l2 := l1.drop ip.length
  let fpL : List Char × List Char :=
    match l2 with
    | '.' :: t => (t.takeWhile Char.isDigit, t.drop (t.takeWhile Char.isDigit).length)
    | _ => ([], l2)
  let fp := fpL.1
  let l3 := fpL.2
  if ip = [] ∧ fp = [] then none
  else
    let mant : ℚ := (digitsToNat ip : ℚ) + (digitsToNat fp : ℚ) / ((10 : ℚ) ^ fp.length)
    match l3 with
    | [] => some (sgn * mant)
    | e :: t =>
      if e = 'e' ∨ e = 'E' then
        let esgnL : Bool × List Char :=
          match t with
          | '+' :: u => (true, u)
          | '-' :: u => (false, u)
          | u => (true, u)
        let ed := esgnL.2.takeWhile Char.isDigit
        if ed = [] ∨ esgnL.2.drop ed.length ≠ [] then none
        else
          let factor : ℚ := (10 : ℚ) ^ digitsToNat ed
          some (sgn * (if esgnL.1 then mant * factor else mant / factor))
      else none

/-- `pd.to_numeric(·, errors=coerce)` on one cell (`none` is NaN). -/
def toNumeric? : Cell → Option ℚ
  | .null => none
  | .num q => some q
  | .str s => parseNum? s
  | .date _ _ _ => none

def isNullC : Cell → Bool
  | .null => true
  | _ => false

/-- `pd.api.types.is_string_dtype`: the column holds text (object dtype). -/
def isStringDtype (col : List Cell) : Bool :=
  col.any (fun c => match c with | .str _ => true | _ => false)

/-- `pd.api.types.is_numeric_dtype`: numbers and NaN only. -/
def isNumericDtype (col : List Cell) : Bool :=
  col.all (fun c => match c with | .num _ => true | .null => true | _ => false)

/-- `Series.mean()` (NaN skipped); `none` when no value survives. -/
def meanOpt (l : List (Option ℚ)) : Option ℚ :=
  let xs := l.filterMap id
  if xs.length = 0 then none else some (xs.sum / (xs.length : ℚ))

def insertS {α : Type} (le : α → α → Bool) (x : α) : List α → List α
  | [] => [x]
  | h :: t => if le x h then x :: h :: t else h :: insertS le x t

/-- Stable insertion sort (the model of every pandas sort in this file:
`groupby(sort=True)` key ordering and `sort_values`). -/
def insSort {α : Type} (le : α → α → Bool) : List α → List α
  | [] => []
  | h :: t => insertS le h (insSort le t)

def ratLe (a b : ℚ) : Bool := decide (a ≤ b)

/-- `Series.median()` (NaN skipped): middle of the sorted values, or the
mean of the two middle ones. -/
def medianOpt (l : List (Option ℚ)) : Option ℚ :=
  let xs := insSort ratLe (l.filterMap id)
  let n := xs.length
  if n = 0 then none
  else if n % 2 = 1 then xs.get? (n / 2)
  else
    match xs.get? (n / 2 - 1), xs.get? (n / 2) with
    | some a, some b => some ((a + b) / 2)
    | _, _ => none

/-- `fillna(v)` on one column. -/
def fillNA (v : Cell) (col : List Cell) : List Cell :=
  col.map (fun c => if isNullC c then v else c)

/-- `dropna(subset=[column])`: drop every row whose cell in the named
column is null, across all columns (rows are matched by position). -/
def dropNullRows (T : Table) (c : String) : Table :=
  match lookupCol T.cols c with
  | none => T
  | some cells =>
    let keep := cells.map (fun x => ! isNullC x)
    ⟨T.cols.map (fun p => (p.1, ((p.2.zip keep).filterMap (fun q => if q.2 then some q.1 else none))))⟩

/-- Row `i` of the table, as the tuple of its cells (`none` past a
end of a column; a uniform table never produces it). -/
def rowAt (T : Table) (i : Nat) : List (Option Cell) :=
  T.cols.map (fun p => p.2.get? i)

def dupFlagsAux : List (List (Option Cell)) → List (List (Option Cell)) → List Bool
  | _, [] => []
  | seen, r :: rs => (decide (r ∈ seen)) :: dupFlagsAux (r :: seen) rs

/-- `df.duplicated()`: marks every row equal to an earlier row. -/
def duplicatedFlags (T : Table) : List Bool :=
  dupFlagsAux [] ((List.range T.rowCount).map (rowAt T))

/-- `df[~df.duplicated()].copy()`. -/
def removeDupFn (T : Table) : Table :=
  let keep := (duplicatedFlags T).map (! ·)
  ⟨T.cols.map (fun p => (p.1, ((p.2.zip keep).filterMap (fun q => if q.2 then some q.1 else none))))⟩

/-- The skeleton mask of `replace_values_by_pattern` /
`standardize_by_example`: rows whose stringified value has the target
skeleton. -/
def maskOfPattern (cells : List Cell) (pat : String) : List Bool :=
  cells.map (fun c => decide (_generate_skeleton (some (pyStr c)) = pat))

/-- `df.loc[mask, column] = v`: overwrite the masked cells. -/
def locSet (cells : List Cell) (mask : List Bool) (v : Cell) : List Cell :=
  (cells.zip mask).map (fun q => if q.2 then v else q.1)

/-- The cell written by `replace_values_by_pattern`: `None` when the
caller passes the reserved sentinel, the literal text otherwise. -/
def newCellOf (v : String) : Cell :=
  if v = "NULL_marker_internal" then Cell.null else Cell.str v

/-- The masked regex assignment of `standardize_by_example` (the
`df_clean.loc[mask, column] = ...str.replace(...)` line): masked cells
are stringified and substituted, unmasked cells are untouched. -/
def applyStandardize (T : Table) (c origin target : String) : Table :=
  match lookupCol T.cols c with
  | none => T
  | some cells =>
    let tokens := findTokens origin
    let patStr := buildPatternStr origin tokens
    let replStr := buildReplStr target tokens
    let sk := _generate_skeleton (some origin)
    T.setCol c (cells.map (fun cell =>
      if _generate_skeleton (some (pyStr cell)) = sk
      then Cell.str (pySub patStr replStr (pyStr cell)) else cell))

/-- `to_numeric(col, errors=coerce)` as a column of cells. -/
def coerceNumericCol (cells : List Cell) : List Cell :=
  cells.map (fun c => match toNumeric? c with | some q => Cell.num q | none => Cell.null)

/-- The column written by the mean/median branch of
`impute_missing_values` (after the all-non-numeric guard has passed). -/
def imputeStatCol (cells : List Cell) (method : String) : List Cell :=
  let numeric := cells.map toNumeric?
  let val : Option ℚ := if method = "Promedio (Media)" then meanOpt numeric else medianOpt numeric
  let col2 := if isStringDtype cells then coerceNumericCol cells else cells
  match val with
  | none => col2
  | some v => fillNA (Cell.num v) col2

/-- Truncation toward zero, as `astype(int)` on floats. -/
def truncQ (q : ℚ) : Int := if 0 ≤ q then Int.floor q else - Int.floor (-q)

/-- `"YYYY-MM-DD"`, the one date layout the model parses. -/
def parseDate? (s : String) : Option (Nat × Nat × Nat) :=
  match s.data with
  | [y1, y2, y3, y4, '-', m1, m2, '-', d1, d2] =>
    if [y1, y2, y3, y4, m1, m2, d1, d2].all Char.isDigit then
      some (digitsToNat [y1, y2, y3, y4], digitsToNat [m1, m2], digitsToNat [d1, d2])
    else none
  | _ => none

/-- `pd.to_datetime(·, errors=coerce)` on one cell. -/
def toDatetime : Cell → Cell
  | .str s => match parseDate? s with | some (y, m, d) => .date y m d | none => .null
  | .date y m d => .date y m d
  | _ => .null

/-- The column conversion of `convert_column_type`. -/
def convertCol (cells : List Cell) (new_type : String) : List Cell :=
  if new_type = "Texto (String)" then cells.map (fun c => Cell.str (pyStr c))
  else if new_type = "Número Entero" then
    cells.map (fun c => Cell.num ((truncQ ((toNumeric? c).getD 0) : Int) : ℚ))
  else if new_type = "Número Decimal" then coerceNumericCol cells
  else if new_type = "Fecha" then cells.map toDatetime
  else cells

/-- The two table variables living in an operation body: the
frame `df` of the caller and the private copy `df_clean`. -/
inductive Var where
  | vdf
  | vclean

structure Env where
  df : Table
  clean : Table

/-- One statement of an operation body: a write to one of the two table
variables, or a conditional raise. -/
inductive Stmt where
  | write (v : Var) (f : Env → Table)
  | raiseIf (c : Env → Option String)

def writeVar (v : Var) (t : Table) (e : Env) : Env :=
  match v with
  | .vdf => { e with df := t }
  | .vclean => { e with clean := t }

/-- Run a body: stop at the first raise, keeping the environment as it
stood at the raise. -/
def runStmts : List Stmt → Env → Option String × Env
  | [], e => (none, e)
  | Stmt.write v f :: rest, e => runStmts rest (writeVar v (f e) e)
  | Stmt.raiseIf c :: rest, e =>
    match c e with
    | some m => (some m, e)
    | none => runStmts rest e

/-- Call an operation on the table of the caller: the body starts with `df`
bound to the argument, and the value handed back on success is
`df_clean`. -/
def runOp (body : List Stmt) (T : Table) : Except String Table :=
  match runStmts body { df := T, clean := ⟨[]⟩ } with
  | (some m, _) => .error m
  | (none, e) => .ok e.clean

def keyErrCheck (c : String) (msg : String) (e : Env) : Option String :=
  match lookupCol e.clean.cols c with
  | none => some msg
  | some _ => none

/-- Body of `replace_values_by_pattern`: copy, then one masked
assignment on the copy (a missing column raises `KeyError` while the
mask is built). -/
def replaceProg (c pat v : String) : List Stmt :=
  [ Stmt.write .vclean (fun e => e.df),
    Stmt.raiseIf (keyErrCheck c "KeyError"),
    Stmt.write .vclean (fun e =>
      match lookupCol e.clean.cols c with
      | none => e.clean
      | some cells => e.clean.setCol c (locSet cells (maskOfPattern cells pat) (newCellOf v))) ]

/-- `replace_values_by_pattern` from `cleaner.py`. -/
def replace_values_by_pattern (T : Table) (c pat v : String) : Except String Table :=
  runOp (replaceProg c pat v) T

/-- Body of `standardize_by_example`: copy, raise when no token can be
extracted from the before-example, raise `KeyError` on a missing column
(while the mask is built), then one masked regex assignment on the
copy. -/
def standardizeProg (c origin target : String) : List Stmt :=
  [ Stmt.write .vclean (fun e => e.df),
    Stmt.raiseIf (fun _ =>
      if findTokens origin = [] then some "No pude detectar datos en el ejemplo." else none),
    Stmt.raiseIf (keyErrCheck c "KeyError"),
    Stmt.write .vclean (fun e => applyStandardize e.clean c origin target) ]

/-- `standardize_by_example` from `cleaner.py`. -/
def standardize_by_example (T : Table) (c origin target : String) : Except String Table :=
  runOp (standardizeProg c origin target) T

def statErrMsg (c method : String) : String :=
  "Error calculando estadística: La columna " ++ sQuote ++ c ++ sQuote ++
    " contiene texto y no se puede calcular " ++ method ++ "."

/-- Body of `impute_missing_values`: copy, then the branch selected by
the method string.  In the mean/median branch everything runs inside the
`try`, so a missing column surfaces as the wrapped statistics error; the
all-non-numeric guard raises before any write. -/
def imputeProg (c method : String) : List Stmt :=
  Stmt.write .vclean (fun e => e.df) ::
  (if method = "Eliminar Renglones" then
    [ Stmt.raiseIf (keyErrCheck c "KeyError"),
      Stmt.write .vclean (fun e => dropNullRows e.clean c) ]
  else if method = "Promedio (Media)" ∨ method = "Mediana" then
    [ Stmt.raiseIf (keyErrCheck c ("Error calculando estadística: " ++ sQuote ++ c ++ sQuote)),
      Stmt.raiseIf (fun e =>
        match lookupCol e.clean.cols c with
        | none => none
        | some cells =>
          if (cells.map toNumeric?).all Option.isNone ∧ ¬ cells.all isNullC
          then some (statErrMsg c method) else none),
      Stmt.write .vclean (fun e =>
        match lookupCol e.clean.cols c with
        | none => e.clean
        | some cells => e.clean.setCol c (imputeStatCol cells method)) ]
  else if method = "Valor Cero" then
    [ Stmt.raiseIf (keyErrCheck c "KeyError"),
      Stmt.write .vclean (fun e =>
        match lookupCol e.clean.cols c with
        | none => e.clean
        | some cells =>
          e.clean.setCol c
            (if isNumericDtype cells then fillNA (Cell.num 0) cells else fillNA (Cell.str "0") cells)) ]
  else [])

/-- `impute_missing_values` from `cleaner.py`. -/
def impute_missing_values (T : Table) (c method : String) : Except String Table :=
  runOp (imputeProg c method) T

/-- Body of `convert_column_type`: copy, then one column assignment on
the copy (`errors=coerce` conversions cannot raise; a missing column
raises inside the `try` and surfaces as the wrapped message). -/
def convertProg (c new_type : String) : List Stmt :=
  [ Stmt.write .vclean (fun e => e.df),
    Stmt.raiseIf (keyErrCheck c ("No se pudo convertir: " ++ sQuote ++ c ++ sQuote)),
    Stmt.write .vclean (fun e =>
      match lookupCol e.clean.cols c with
      | none => e.clean
      | some cells => e.clean.setCol c (convertCol cells new_type)) ]

/-- `convert_column_type` from `cleaner.py`. -/
def convert_column_type (T : Table) (c new_type : String) : Except String Table :=
  runOp (convertProg c new_type) T

/-- Body of `remove_duplicates`: reads `df`, hands back a filtered
copy; nothing is ever written to the frame of the caller. -/
def dedupProg : List Stmt :=
  [ Stmt.write .vclean (fun e => removeDupFn e.df) ]

/-- `remove_duplicates` from `cleaner.py`. -/
def remove_duplicates (T : Table) : Except String Table :=
  runOp dedupProg T

/-- Round to integer, ties to even (`numpy`/pandas `.round`). -/
def roundHalfEven (x : ℚ) : Int :=
  let f := Int.floor x
  let r := x - (f : ℚ)
  if r < 1 / 2 then f
  else if 1 / 2 < r then f + 1
  else if f % 2 = 0 then f else f + 1

/-- `.round(1)`. -/
def round1 (x : ℚ) : ℚ := (roundHalfEven (x * 10) : ℚ) / 10

/-- One row of the frame returned by `analyze_text_patterns`: the
skeleton, its member count, its share of the rows, the homogeneity flag
and the first-occurrence example. -/
structure GroupStat where
  patron : String
  cantidad : Nat
  pctTotal : ℚ
  valorUnico : Bool
  ejemplo : String
deriving DecidableEq

def charLtB (a b : Char) : Bool := decide (a < b)

/-- Lexicographic (code point) comparison of character lists, the order
Python uses on strings (`sorted`, `groupby(sort=True)`). -/
def lexLe : List Char → List Char → Bool
  | [], _ => true
  | _ :: _, [] => false
  | a :: as, b :: bs => if a = b then lexLe as bs else charLtB a b

def strLe (a b : String) : Bool := lexLe a.data b.data

def statLe (a b : GroupStat) : Bool := decide (b.cantidad ≤ a.cantidad)

/-- The aggregation row of one skeleton group. -/
def mkStat (vals pats : List String) (n : Nat) (k : String) : GroupStat :=
  let members := (vals.zip pats).filterMap (fun vp => if vp.2 = k then some vp.1 else none)
  { patron := k
    cantidad := members.length
    pctTotal := round1 ((members.length : ℚ) / (n : ℚ) * 100)
    valorUnico := decide (members.dedup.length = 1)
    ejemplo := members.headD "" }

/-- `analyze_text_patterns` from `cleaner.py`: stringify the column,
derive skeletons, aggregate per skeleton (`groupby` with its default
ascending key sort), then `sort_values` by count descending.  The
source sorts with numpy quicksort, whose order among equal counts is
implementation defined (it coincides with a stable sort only below the
insertion-sort cutoff of quicksort); the model uses a stable insertion
sort, so only count-ordering facts — not tie-order facts — transfer to
the source in general. -/
def analyze_text_patterns (T : Table) (column : String) : Except String (List GroupStat) :=
  match lookupCol T.cols column with
  | none => .error "KeyError"
  | some col =>
    let vals := col.map pyStr
    let pats := vals.map (fun v => _generate_skeleton (some v))
    let keys := insSort strLe pats.dedup
    .ok (insSort statLe (keys.map (mkStat vals pats T.rowCount)))

/-- `get_unique_values_by_pattern` from `cleaner.py`. -/
def get_unique_values_by_pattern (T : Table) (column pattern : String) : Option (List Cell) :=
  match lookupCol T.cols column with
  | none => none
  | some cells =>
    ((cells.zip (maskOfPattern cells pattern)).filterMap
      (fun q => if q.2 then some q.1 else none)).dedup

lemma mem_insertS {α : Type} (le : α → α → Bool) (x y : α) :
    ∀ l : List α, y ∈ insertS le x l → y = x ∨ y ∈ l := by
  intro l
  induction l with
  | nil => simp [insertS]
  | cons h t ih =>
    simp only [insertS]
    split
    · intro hy
      rcases List.mem_cons.mp hy with hy | hy
      · exact Or.inl hy
      · exact Or.inr hy
    · intro hy
      rcases List.mem_cons.mp hy with hy | hy
      · exact Or.inr (hy ▸ List.mem_cons_self h t)
      · rcases ih hy with hy | hy
        · exact Or.inl hy
        · exact Or.inr (List.mem_cons_of_mem h hy)

lemma perm_insertS {α : Type} (le : α → α → Bool) (x : α) :
    ∀ l : List α, List.Perm (insertS le x l) (x :: l) := by
  intro l
  induction l with
  | nil => simp [insertS]
  | cons h t ih =>
    simp only [insertS]
    split
    · exact List.Perm.refl _
    · exact (List.Perm.cons h ih).trans (List.Perm.swap x h t)

lemma perm_insSort {α : Type} (le : α → α → Bool) :
    ∀ l : List α, List.Perm (insSort le l) l := by
  intro l
  induction l with
  | nil => exact List.Perm.refl _
  | cons h t ih =>
    exact (perm_insertS le h (insSort le t)).trans (List.Perm.cons h ih)

lemma pairwise_insertS {α : Type} (le : α → α → Bool)
    (htot : ∀ a b, le a b = true ∨ le b a = true)
    (htr : ∀ a b c, le a b = true → le b c = true → le a c = true)
    (x : α) :
    ∀ l : List α, l.Pairwise (fun a b => le a b = true) →
      (insertS le x l).Pairwise (fun a b => le a b = true) := by
  intro l
  induction l with
  | nil => simp [insertS]
  | cons h t ih =>
    intro hp
    rcases List.pairwise_cons.mp hp with ⟨hh, ht⟩
    simp only [insertS]
    split
    · rename_i hxh
      refine List.pairwise_cons.mpr ⟨?_, hp⟩
      intro b hb
      rcases List.mem_cons.mp hb with rfl | hb
      · exact hxh
      · exact htr x h b hxh (hh b hb)
    · rename_i hxh
      have hhx : le h x = true := by
        rcases htot x h with hc | hc
        · exact absurd hc hxh
        · exact hc
      refine List.pairwise_cons.mpr ⟨?_, ih ht⟩
      intro b hb
      rcases mem_insertS le x b t hb with rfl | hb
      · exact hhx
      · exact hh b hb

lemma pairwise_insSort {α : Type} (le : α → α → Bool)
    (htot : ∀ a b, le a b = true ∨ le b a = true)
    (htr : ∀ a b c, le a b = true → le b c = true → le a c = true) :
    ∀ l : List α, (insSort le l).Pairwise (fun a b => le a b = true) := by
  intro l
  induction l with
  | nil => exact .nil
  | cons h t ih => exact pairwise_insertS le htot htr h (insSort le t) ih

lemma lookup_set_self (c : String) (l : List Cell) :
    ∀ cols : List (String × List Cell),
      lookupCol (cols.map (fun p => if p.1 = c then (p.1, l) else p)) c
        = (lookupCol cols c).map (fun _ => l) := by
  intro cols
  induction cols with
  | nil => simp [lookupCol]
  | cons p ps ih =>
    by_cases hpc : p.1 = c
    · simp [lookupCol, hpc]
    · simp [lookupCol, hpc, ih]

lemma getCol_setCol (T : Table) (c : String) (l : List Cell) :
    (T.setCol c l).getCol c = (T.getCol c).map (fun _ => l) := by
  simpa [Table.getCol, Table.setCol] using lookup_set_self c l T.cols

lemma setCol_setCol (T : Table) (c : String) (l l2 : List Cell) :
    (T.setCol c l).setCol c l2 = T.setCol c l2 := by
  simp only [Table.setCol, List.map_map, Table.mk.injEq]
  apply List.map_congr_left
  intro p _
  by_cases hpc : p.1 = c <;> simp [hpc]

lemma setCol_names (T : Table) (c : String) (l : List Cell) :
    (T.setCol c l).cols.map Prod.fst = T.cols.map Prod.fst := by
  simp only [Table.setCol, List.map_map]
  apply List.map_congr_left
  intro p _
  by_cases hpc : p.1 = c <;> simp [hpc]

lemma setCol_other_mem (T : Table) (c : String) (l : List Cell) (p : String × List Cell)
    (hp : p ∈ T.cols) (hne : p.1 ≠ c) : p ∈ (T.setCol c l).cols := by
  simp only [Table.setCol]
  have : (if p.1 = c then (p.1, l) else p) = p := by simp [hne]
  exact this ▸ List.mem_map_of_mem _ hp

lemma map_id_of_no_name (c : String) (l : List Cell) :
    ∀ cols : List (String × List Cell), (∀ p ∈ cols, p.1 ≠ c) →
      cols.map (fun p => if p.1 = c then (p.1, l) else p) = cols := by
  intro cols
  induction cols with
  | nil => simp
  | cons p ps ih =>
    intro hno
    have hp : p.1 ≠ c := hno p (List.mem_cons_self p ps)
    simp only [List.map_cons, if_neg hp, List.cons.injEq, true_and]
    exact ih (fun q hq => hno q (List.mem_cons_of_mem p hq))

lemma set_id_list (c : String) :
    ∀ (cols : List (String × List Cell)) (cells : List Cell),
      lookupCol cols c = some cells → (cols.map Prod.fst).Nodup →
      cols.map (fun p => if p.1 = c then (p.1, cells) else p) = cols := by
  intro cols
  induction cols with
  | nil => intro cells h _; simp [lookupCol] at h
  | cons p ps ih =>
    intro cells h hnd
    simp only [List.map_cons, List.nodup_cons, List.mem_map] at hnd
    by_cases hpc : p.1 = c
    · simp only [lookupCol, if_pos hpc] at h
      have hcells : cells = p.2 := by injection h with h2; exact h2.symm
      subst hcells
      rw [List.map_cons, if_pos hpc]
      have hpe : (p.1, p.2) = p := rfl
      rw [hpe, map_id_of_no_name c p.2 ps (fun q hq hqc => hnd.1 ⟨q, hq, hqc.trans hpc.symm⟩)]
    · simp only [lookupCol, if_neg hpc] at h
      simp only [List.map_cons, if_neg hpc, List.cons.injEq, true_and]
      exact ih cells h hnd.2

lemma setCol_id (T : Table) (c : String) (cells : List Cell)
    (h : T.getCol c = some cells) (hnd : (T.cols.map Prod.fst).Nodup) :
    T.setCol c cells = T := by
  simp only [Table.setCol]
  rw [set_id_list c T.cols cells h hnd]

lemma locSet_map_mask (p : Cell → Bool) (v : Cell) :
    ∀ cells : List Cell, locSet cells (cells.map p) v = cells.map (fun x => if p x then v else x) := by
  intro cells
  induction cells with
  | nil => simp [locSet]
  | cons x xs ih => simp [locSet] at ih ⊢; exact ih

lemma locSet_mask_eq (cells : List Cell) (pat : String) (v : Cell) :
    locSet cells (maskOfPattern cells pat) v
      = cells.map (fun x => if _generate_skeleton (some (pyStr x)) = pat then v else x) := by
  have := locSet_map_mask (fun c => decide (_generate_skeleton (some (pyStr c)) = pat)) v cells
  simp only [maskOfPattern]
  rw [this]
  apply List.map_congr_left
  intro x _
  by_cases hx : _generate_skeleton (some (pyStr x)) = pat <;> simp [hx]

/-- A statement that never writes the frame `df` of the caller. -/
def writesDfFree : Stmt → Prop
  | .write .vdf _ => False
  | _ => True

lemma runStmts_df_eq :
    ∀ body : List Stmt, (∀ s ∈ body, writesDfFree s) → ∀ e : Env,
      (runStmts body e).2.df = e.df := by
  intro body
  induction body with
  | nil => intro _ e; rfl
  | cons s rest ih =>
    intro hb e
    have hs := hb s (List.mem_cons_self s rest)
    have hrest : ∀ q ∈ rest, writesDfFree q := fun q hq => hb q (List.mem_cons_of_mem s hq)
    cases s with
    | write v f =>
      cases v with
      | vdf => exact absurd hs (by simp [writesDfFree])
      | vclean =>
        simp only [runStmts]
        rw [ih hrest]
        rfl
    | raiseIf c =>
      simp only [runStmts]
      cases hc : c e with
      | none => exact ih hrest e
      | some m => rfl

lemma replace_eq (T : Table) (c pat v : String) :
    replace_values_by_pattern T c pat v =
      match lookupCol T.cols c with
      | none => Except.error "KeyError"
      | some cells =>
        Except.ok (T.setCol c (locSet cells (maskOfPattern cells pat) (newCellOf v))) := by
  cases h : lookupCol T.cols c <;>
    simp [replace_values_by_pattern, runOp, replaceProg, runStmts, writeVar, keyErrCheck, h]

lemma replace_eq_some (T : Table) (c pat v : String) (cells : List Cell)
    (h : lookupCol T.cols c = some cells) :
    replace_values_by_pattern T c pat v
      = Except.ok (T.setCol c (locSet cells (maskOfPattern cells pat) (newCellOf v))) := by
  rw [replace_eq, h]

lemma standardize_eq (T : Table) (c origin target : String) :
    standardize_by_example T c origin target =
      if findTokens origin = [] then Except.error "No pude detectar datos en el ejemplo."
      else
        match lookupCol T.cols c with
        | none => Except.error "KeyError"
        | some _ => Except.ok (applyStandardize T c origin target) := by
  by_cases ht : findTokens origin = [] <;> cases h : lookupCol T.cols c <;>
    simp [standardize_by_example, runOp, standardizeProg, runStmts, writeVar, keyErrCheck, h, ht]

lemma impute_delete_eq (T : Table) (c : String) :
    impute_missing_values T c "Eliminar Renglones" =
      match lookupCol T.cols c with
      | none => Except.error "KeyError"
      | some _ => Except.ok (dropNullRows T c) := by
  cases h : lookupCol T.cols c <;>
    simp [impute_missing_values, runOp, imputeProg, runStmts, writeVar, keyErrCheck, h]

lemma impute_stat_eq (T : Table) (c m : String)
    (hm : m = "Promedio (Media)" ∨ m = "Mediana") :
    impute_missing_values T c m =
      match lookupCol T.cols c with
      | none => Except.error ("Error calculando estadística: " ++ sQuote ++ c ++ sQuote)
      | some cells =>
        if (∀ a ∈ cells, toNumeric? a = none) ∧ ∃ x ∈ cells, isNullC x = false
        then Except.error (statErrMsg c m)
        else Except.ok (T.setCol c (imputeStatCol cells m)) := by
  have hne : ¬ m = "Eliminar Renglones" := by
    rcases hm with rfl | rfl <;> decide
  cases h : lookupCol T.cols c with
  | none =>
    simp [impute_missing_values, runOp, imputeProg, runStmts, writeVar, keyErrCheck, h, hne, hm]
  | some cells =>
    by_cases hg : (∀ a ∈ cells, toNumeric? a = none) ∧ ∃ x ∈ cells, isNullC x = false
    · simp only [impute_missing_values, runOp, imputeProg, runStmts, writeVar, keyErrCheck,
        if_neg hne, h]
      have hm2 : (m = "Promedio (Media)" ∨ m = "Mediana") := hm
      rw [if_pos hm2]
      simp only [runStmts, writeVar, keyErrCheck, h]
      have hcond : ((cells.map toNumeric?).all Option.isNone = true ∧ ¬ cells.all isNullC = true) := by
        constructor
        · simp only [List.all_eq_true]
          intro a ha
          rcases List.mem_map.mp ha with ⟨x, hx, rfl⟩
          simp [hg.1 x hx]
        · simp only [List.all_eq_true, not_forall]
          rcases hg.2 with ⟨x, hx, hxf⟩
          exact ⟨x, hx, by simp [hxf]⟩
      rw [if_pos hcond, if_pos hg]
    · simp only [impute_missing_values, runOp, imputeProg, runStmts, writeVar, keyErrCheck,
        if_neg hne, h]
      have hm2 : (m = "Promedio (Media)" ∨ m = "Mediana") := hm
      rw [if_pos hm2]
      simp only [runStmts, writeVar, keyErrCheck, h]
      have hcond : ¬ ((cells.map toNumeric?).all Option.isNone = true ∧ ¬ cells.all isNullC = true) := by
        intro hcon
        apply hg
        constructor
        · intro a ha
          have h1 := hcon.1
          simp only [List.all_eq_true] at h1
          have h2 := h1 (toNumeric? a) (List.mem_map_of_mem toNumeric? ha)
          simpa [Option.isNone_iff_eq_none] using h2
        · have := hcon.2
          simp only [List.all_eq_true, not_forall] at this
          rcases this with ⟨x, hx, hxf⟩
          exact ⟨x, hx, by simpa using hxf⟩
      rw [if_neg hcond, if_neg hg]

lemma impute_zero_eq (T : Table) (c : String) :
    impute_missing_values T c "Valor Cero" =
      match lookupCol T.cols c with
      | none => Except.error "KeyError"
      | some cells =>
        Except.ok (T.setCol c
          (if isNumericDtype cells then fillNA (Cell.num 0) cells else fillNA (Cell.str "0") cells)) := by
  cases h : lookupCol T.cols c <;>
    simp [impute_missing_values, runOp, imputeProg, runStmts, writeVar, keyErrCheck, h]

lemma members_length (f : String → String) (k : String) :
    ∀ vals : List String,
      ((vals.zip (vals.map f)).filterMap
        (fun vp => if vp.2 = k then some vp.1 else none)).length = (vals.map f).count k := by
  intro vals
  induction vals with
  | nil => simp
  | cons v vs ih =>
    by_cases hfk : f v = k <;>
      simp [List.count_cons, hfk, ih]

lemma mkStat_cantidad (vals pats : List String) (n : Nat) (k : String) :
    (mkStat vals pats n k).cantidad
      = ((vals.zip pats).filterMap (fun vp => if vp.2 = k then some vp.1 else none)).length := by
  simp [mkStat]

lemma statLe_total (a b : GroupStat) : statLe a b = true ∨ statLe b a = true := by
  simp only [statLe, decide_eq_true_eq]
  omega

lemma statLe_trans (a b c : GroupStat) (h1 : statLe a b = true) (h2 : statLe b c = true) :
    statLe a c = true := by
  simp only [statLe, decide_eq_true_eq] at h1 h2 ⊢
  omega

lemma stats_sum_eq_length (vals : List String) (f : String → String) (n : Nat) :
    ((insSort statLe
        ((insSort strLe (vals.map f).dedup).map (mkStat vals (vals.map f) n))).map
      GroupStat.cantidad).sum = vals.length := by
  set pats := vals.map f with hpats
  have hperm1 : List.Perm
      ((insSort statLe ((insSort strLe pats.dedup).map (mkStat vals pats n))).map GroupStat.cantidad)
      (((insSort strLe pats.dedup).map (mkStat vals pats n)).map GroupStat.cantidad) :=
    (perm_insSort statLe _).map GroupStat.cantidad
  rw [hperm1.sum_eq]
  rw [List.map_map]
  have hperm2 : List.Perm
      ((insSort strLe pats.dedup).map (GroupStat.cantidad ∘ mkStat vals pats n))
      (pats.dedup.map (GroupStat.cantidad ∘ mkStat vals pats n)) :=
    (perm_insSort strLe pats.dedup).map _
  rw [hperm2.sum_eq]
  have hcong : pats.dedup.map (GroupStat.cantidad ∘ mkStat vals pats n)
      = pats.dedup.map (fun k => pats.count k) := by
    apply List.map_congr_left
    intro k _
    simp only [Function.comp]
    rw [mkStat_cantidad, hpats, members_length f k vals]
  rw [hcong]
  rw [List.sum_map_count_dedup_eq_length pats]
  simp [hpats]

lemma analyze_ok (T : Table) (column : String) (col : List Cell)
    (h : lookupCol T.cols column = some col) :
    analyze_text_patterns T column =
      Except.ok (insSort statLe
        ((insSort strLe ((col.map pyStr).map
            (fun v => _generate_skeleton (some v))).dedup).map
          (mkStat (col.map pyStr)
            ((col.map pyStr).map (fun v => _generate_skeleton (some v))) T.rowCount))) := by
  simp [analyze_text_patterns, h]

lemma lookupCol_mem :
    ∀ (cols : List (String × List Cell)) (c : String) (cells : List Cell),
      lookupCol cols c = some cells → ∃ p ∈ cols, p.2 = cells := by
  intro cols
  induction cols with
  | nil => intro c cells h; simp [lookupCol] at h
  | cons p ps ih =>
    intro c cells h
    by_cases hpc : p.1 = c
    · simp only [lookupCol, if_pos hpc] at h
      exact ⟨p, List.mem_cons_self p ps, Option.some.inj h⟩
    · simp only [lookupCol, if_neg hpc] at h
      rcases ih c cells h with ⟨q, hq, hqc⟩
      exact ⟨q, List.mem_cons_of_mem p hq, hqc⟩

/-- C2: the skeleton function is total and deterministic and maps null to
`"NULO"`, but the two class markers are not distinct on the code: the
first substitution turns digits into `N`, and the second substitution,
matching every ASCII letter, immediately rewrites those `N` markers to
`A`.  `"AB-123"` therefore yields `"AA-AAA"`, not the claimed
`"AA-NNN"`, and `"2024-01-05"` yields `"AAAA-AA-AA"`, not
`"NNNN-NN-NN"`. -/
theorem skeleton_digit_marker_eval :
    _generate_skeleton (some "AB-123") = "AA-AAA"
  ∧ _generate_skeleton (some "AB-123") ≠ "AA-NNN"
  ∧ _generate_skeleton (some "2024-01-05") = "AAAA-AA-AA"
  ∧ _generate_skeleton (some "2024-01-05") ≠ "NNNN-NN-NN"
  ∧ _generate_skeleton none = "NULO" :=
  ⟨by decide, by decide, by decide, by decide, by decide⟩

/-- C1: evaluating `standardize_by_example` with before `"INV-001"` and
after `"INV/001"` does rewrite `"INV-042"` to `"INV/042"` and leaves
`"INV001"` unchanged, but not for the reason the claim states: the
skeleton computed for `"INV-001"` and `"INV-042"` is `"AAA-AAA"`, never
`"AAA-NNN"` (no skeleton ever contains an `N`, see the second
substitution of `_generate_skeleton`), so the claim that rows whose
skeleton differs from `"AAA-NNN"` are left unchanged fails on
`"INV-042"` itself. -/
theorem standardize_inv_rewrite_eval :
    standardize_by_example ⟨[("c", [Cell.str "INV-042", Cell.str "INV001"])]⟩ "c" "INV-001" "INV/001"
      = Except.ok ⟨[("c", [Cell.str "INV/042", Cell.str "INV001"])]⟩
  ∧ _generate_skeleton (some "INV-001") = "AAA-AAA"
  ∧ _generate_skeleton (some "INV-042") = "AAA-AAA"
  ∧ _generate_skeleton (some "INV-042") ≠ "AAA-NNN"
  ∧ _generate_skeleton (some "INV001") = "AAAAAA" :=
  ⟨by rfl, by decide, by decide, by decide, by decide⟩

/-- C8: on a column holding one null cell the group table does not
contain a `"NULO"` group: `astype(str)` stringifies the null to
`"nan"` before `_generate_skeleton` runs, so its `pd.isna` branch is
unreachable and the null lands in the ordinary letters-skeleton group
(`"AAA"`), a skeleton derivable from real text. -/
theorem analyze_null_sentinel_eval :
    (analyze_text_patterns ⟨[("c", [Cell.null])]⟩ "c").toOption.map
        (fun l => l.map (fun g => (g.patron, g.cantidad))) = some [("AAA", 1)]
  ∧ _generate_skeleton (some (pyStr Cell.null)) = "AAA"
  ∧ ("AAA" : String) ≠ "NULO" :=
  ⟨by decide, by decide, by decide⟩

/-- C3: for every table whose columns all have the row count of the table and
every existing column, the member counts of the groups returned by
`analyze_text_patterns` sum to the row count: the skeleton groups
partition the column exhaustively and disjointly. -/
theorem analyze_counts_sum_eq_rowCount (T : Table) (c : String) (col : List Cell)
    (h : T.getCol c = some col) (hu : T.uniform) :
    ∃ stats, analyze_text_patterns T c = Except.ok stats
      ∧ (stats.map GroupStat.cantidad).sum = T.rowCount := by
  refine ⟨_, analyze_ok T c col h, ?_⟩
  rw [stats_sum_eq_length]
  rcases lookupCol_mem T.cols c col h with ⟨p, hp, hpc⟩
  rw [List.length_map, ← hpc]
  exact hu p hp

/-- Witness for C3 at a concrete two-column, two-row table. -/
theorem analyze_counts_sum_eq_rowCount_wit :
    ∃ stats, analyze_text_patterns
        ⟨[("c", [Cell.str "a", Cell.str "b2"]), ("d", [Cell.null, Cell.str "x"])]⟩ "c"
        = Except.ok stats
      ∧ (stats.map GroupStat.cantidad).sum
          = Table.rowCount ⟨[("c", [Cell.str "a", Cell.str "b2"]), ("d", [Cell.null, Cell.str "x"])]⟩ :=
  analyze_counts_sum_eq_rowCount
    ⟨[("c", [Cell.str "a", Cell.str "b2"]), ("d", [Cell.null, Cell.str "x"])]⟩
    "c" [Cell.str "a", Cell.str "b2"] (by decide) (by intro p hp; fin_cases hp <;> rfl)

/-- C7 counterexample: on the column `["a.", "b-"]` both skeleton groups
(`"A."` first encountered, `"A-"` second) have count 1, yet the group
table lists `"A-"` before `"A."`: the tie is resolved by the ascending
lexicographic `groupby` key order, not by the original encounter order
(which the second conjunct computes). -/
theorem analyze_tie_order_cex :
    (analyze_text_patterns ⟨[("c", [Cell.str "a.", Cell.str "b-"])]⟩ "c").toOption.map
        (fun l => l.map (fun g => (g.patron, g.cantidad))) = some [("A-", 1), ("A.", 1)]
  ∧ ([Cell.str "a.", Cell.str "b-"].map (fun x => _generate_skeleton (some (pyStr x)))).dedup
      = ["A.", "A-"]
  ∧ (["A-", "A."] : List String) ≠ ["A.", "A-"] :=
  ⟨by decide, by decide, by decide⟩

/-- C7 amended: for every table and existing column the group table is
ordered by member count descending (non-strict across ties).  This is
the part of the ordering every comparison sort by count guarantees; the
order among equal-count groups is not the encounter order (see the
counterexample), and no tie order is asserted in general, since the
quicksort behind `sort_values` is unstable beyond its insertion-sort
cutoff. -/
theorem analyze_sorted_desc (T : Table) (c : String) (col : List Cell)
    (h : T.getCol c = some col) :
    ∃ stats, analyze_text_patterns T c = Except.ok stats
      ∧ stats.Pairwise (fun a b => b.cantidad ≤ a.cantidad) := by
  refine ⟨_, analyze_ok T c col h, ?_⟩
  exact (pairwise_insSort statLe statLe_total statLe_trans _).imp
    (fun hab => by simpa [statLe] using hab)

/-- Witness for the amended C7 at a concrete table with a count tie. -/
theorem analyze_sorted_desc_wit :
    ∃ stats, analyze_text_patterns ⟨[("c", [Cell.str "a.", Cell.str "b-"])]⟩ "c"
        = Except.ok stats ∧ stats.Pairwise (fun a b => b.cantidad ≤ a.cantidad) :=
  analyze_sorted_desc ⟨[("c", [Cell.str "a.", Cell.str "b-"])]⟩ "c"
    [Cell.str "a.", Cell.str "b-"] (by decide)

/-- C4: every mutating operation writes only its private copy
`df_clean`: running any of the five operation bodies from a frame whose
`df` is the input table leaves `df` equal to the input at every exit,
including the exits taken when the body raises (`runStmts` keeps the
environment standing at the raise).  A failing call therefore never
hands back, nor leaves behind, a partially mutated table. -/
theorem ops_preserve_caller_frame :
    (∀ (T : Table) (c pat v : String),
        (runStmts (replaceProg c pat v) { df := T, clean := ⟨[]⟩ }).2.df = T)
  ∧ (∀ (T : Table) (c o t : String),
        (runStmts (standardizeProg c o t) { df := T, clean := ⟨[]⟩ }).2.df = T)
  ∧ (∀ (T : Table) (c m : String),
        (runStmts (imputeProg c m) { df := T, clean := ⟨[]⟩ }).2.df = T)
  ∧ (∀ (T : Table) (c ty : String),
        (runStmts (convertProg c ty) { df := T, clean := ⟨[]⟩ }).2.df = T)
  ∧ (∀ T : Table, (runStmts dedupProg { df := T, clean := ⟨[]⟩ }).2.df = T) := by
  refine ⟨?_, ?_, ?_, ?_, ?_⟩
  · intro T c pat v
    apply runStmts_df_eq
    intro s hs
    fin_cases hs <;> trivial
  · intro T c o t
    apply runStmts_df_eq
    intro s hs
    fin_cases hs <;> trivial
  · intro T c m
    apply runStmts_df_eq
    intro s hs
    rcases List.mem_cons.mp hs with rfl | hs
    · trivial
    · split_ifs at hs <;> (fin_cases hs <;> trivial)
  · intro T c ty
    apply runStmts_df_eq
    intro s hs
    fin_cases hs <;> trivial
  · intro T
    apply runStmts_df_eq
    intro s hs
    fin_cases hs
    trivial

/-- C5 counterexample: imputing the mean on a column that contains the
non-numeric value `"abc"` next to the numeric `"1"` does not raise: the
source only raises when the coerced column is null throughout
(`numeric_series.isnull().all()`), so one parseable value suffices for
the call to succeed. -/
theorem impute_mean_partial_nonnumeric_ok :
    (impute_missing_values ⟨[("c", [Cell.str "1", Cell.str "abc", Cell.null])]⟩ "c"
        "Promedio (Media)").isOk = true
  ∧ toNumeric? (Cell.str "abc") = none
  ∧ (toNumeric? (Cell.str "1")).isSome = true :=
  ⟨by decide, by decide, by decide⟩

/-- C5 amended: mean/median imputation on an existing column raises the
column-naming statistics error exactly when every cell fails numeric
coercion while some cell is non-null; the zero-fill and row-deletion
methods return a table for every input table and existing column. -/
theorem impute_raise_characterization :
    (∀ (T : Table) (c m : String) (cells : List Cell), T.getCol c = some cells →
      m = "Promedio (Media)" ∨ m = "Mediana" →
      (impute_missing_values T c m = Except.error (statErrMsg c m)
        ↔ ((∀ a ∈ cells, toNumeric? a = none) ∧ ∃ x ∈ cells, isNullC x = false)))
  ∧ (∀ (T : Table) (c : String) (cells : List Cell), T.getCol c = some cells →
      ∃ T2, impute_missing_values T c "Valor Cero" = Except.ok T2)
  ∧ (∀ (T : Table) (c : String) (cells : List Cell), T.getCol c = some cells →
      ∃ T2, impute_missing_values T c "Eliminar Renglones" = Except.ok T2) := by
  refine ⟨?_, ?_, ?_⟩
  · intro T c m cells h hm
    rw [impute_stat_eq T c m hm]
    have h2 : lookupCol T.cols c = some cells := h
    rw [h2]
    by_cases hg : (∀ a ∈ cells, toNumeric? a = none) ∧ ∃ x ∈ cells, isNullC x = false
    · simp [if_pos hg, hg]
    · simp [if_neg hg, hg]
  · intro T c cells h
    rw [impute_zero_eq]
    have h2 : lookupCol T.cols c = some cells := h
    rw [h2]
    exact ⟨_, rfl⟩
  · intro T c cells h
    rw [impute_delete_eq]
    have h2 : lookupCol T.cols c = some cells := h
    rw [h2]
    exact ⟨_, rfl⟩

/-- Witness for the amended C5: an all-non-numeric, not-all-null column
raises the column-naming error on the mean; zero-fill succeeds on the
same column. -/
theorem impute_raise_characterization_wit :
    impute_missing_values ⟨[("c", [Cell.str "abc", Cell.null])]⟩ "c" "Promedio (Media)"
        = Except.error (statErrMsg "c" "Promedio (Media)")
  ∧ ∃ T2, impute_missing_values ⟨[("c", [Cell.str "abc", Cell.null])]⟩ "c" "Valor Cero"
        = Except.ok T2 := by
  constructor
  · exact (impute_raise_characterization.1 ⟨[("c", [Cell.str "abc", Cell.null])]⟩ "c"
      "Promedio (Media)" [Cell.str "abc", Cell.null] (by decide) (Or.inl rfl)).mpr (by decide)
  · exact impute_raise_characterization.2.1 ⟨[("c", [Cell.str "abc", Cell.null])]⟩ "c"
      [Cell.str "abc", Cell.null] (by decide)

lemma map_ite_idem (P : Cell → Prop) [DecidablePred P] (nc : Cell) (cells : List Cell) :
    (cells.map (fun x => if P x then nc else x)).map (fun x => if P x then nc else x)
      = cells.map (fun x => if P x then nc else x) := by
  rw [List.map_map]
  apply List.map_congr_left
  intro x _
  by_cases hx : P x
  · simp [hx]
  · simp [hx]

/-- C6: `replace_values_by_pattern` on an existing column (of a table
with distinct column names) succeeds, preserves the column layout and
every other column, rewrites exactly the cells whose stringified value
has the target skeleton (to the literal, or to null for the reserved
sentinel), and returns the input table unchanged when no cell carries
the target skeleton. -/
theorem replace_group_frame (T : Table) (c s v : String) (cells : List Cell)
    (h : T.getCol c = some cells) (hnd : (T.cols.map Prod.fst).Nodup) :
    ∃ out, replace_values_by_pattern T c s v = Except.ok out
      ∧ out.cols.map Prod.fst = T.cols.map Prod.fst
      ∧ (∀ p ∈ T.cols, p.1 ≠ c → p ∈ out.cols)
      ∧ (∃ outCells, out.getCol c = some outCells ∧ outCells.length = cells.length
          ∧ ∀ i : Nat, outCells[i]? = (cells[i]?).map (fun x =>
              if _generate_skeleton (some (pyStr x)) = s then newCellOf v else x))
      ∧ ((∀ x ∈ cells, _generate_skeleton (some (pyStr x)) ≠ s) → out = T) := by
  have h2 : lookupCol T.cols c = some cells := h
  have heq := replace_eq_some T c s v cells h2
  have hloc := locSet_mask_eq cells s (newCellOf v)
  refine ⟨T.setCol c (locSet cells (maskOfPattern cells s) (newCellOf v)), heq,
    setCol_names T c _, fun p hp hpc => setCol_other_mem T c _ p hp hpc, ?_, ?_⟩
  · refine ⟨locSet cells (maskOfPattern cells s) (newCellOf v), ?_, ?_, ?_⟩
    · rw [getCol_setCol, h]
      rfl
    · rw [hloc, List.length_map]
    · intro i
      rw [hloc, List.getElem?_map]
  · intro hno
    have hsame : locSet cells (maskOfPattern cells s) (newCellOf v) = cells := by
      rw [hloc]
      have : cells.map (fun x => if _generate_skeleton (some (pyStr x)) = s then newCellOf v else x)
          = cells.map id := by
        apply List.map_congr_left
        intro x hx
        simp [hno x hx]
      simpa using this
    rw [hsame]
    exact setCol_id T c cells h hnd

/-- Witness for C6 at a concrete two-column table. -/
theorem replace_group_frame_wit :
    ∃ out, replace_values_by_pattern ⟨[("c", [Cell.str "ab", Cell.str "x1"]), ("d", [Cell.str "q", Cell.null])]⟩ "c" "AA" "zz"
        = Except.ok out
      ∧ out.cols.map Prod.fst
          = (Table.mk [("c", [Cell.str "ab", Cell.str "x1"]), ("d", [Cell.str "q", Cell.null])]).cols.map Prod.fst
      ∧ (∀ p ∈ (Table.mk [("c", [Cell.str "ab", Cell.str "x1"]), ("d", [Cell.str "q", Cell.null])]).cols,
            p.1 ≠ "c" → p ∈ out.cols)
      ∧ (∃ outCells, out.getCol "c" = some outCells
          ∧ outCells.length = [Cell.str "ab", Cell.str "x1"].length
          ∧ ∀ i : Nat, outCells[i]? = ([Cell.str "ab", Cell.str "x1"][i]?).map (fun x =>
              if _generate_skeleton (some (pyStr x)) = "AA" then newCellOf "zz" else x))
      ∧ ((∀ x ∈ [Cell.str "ab", Cell.str "x1"], _generate_skeleton (some (pyStr x)) ≠ "AA") →
          out = ⟨[("c", [Cell.str "ab", Cell.str "x1"]), ("d", [Cell.str "q", Cell.null])]⟩) :=
  replace_group_frame ⟨[("c", [Cell.str "ab", Cell.str "x1"]), ("d", [Cell.str "q", Cell.null])]⟩
    "c" "AA" "zz" [Cell.str "ab", Cell.str "x1"] (by decide) (by decide)

/-- C9 counterexample: the claim designates replacement values whose own
skeleton equals the target skeleton as a non-idempotent edge case, but
re-applying the replacement is still a no-op there: the second pass
rewrites the already-written literal with the same literal.  Here the
value `"xy"` has exactly the target skeleton `"AA"` and the second
application returns the same table. -/
theorem replace_idem_skel_match_cex :
    _generate_skeleton (some "xy") = "AA"
  ∧ replace_values_by_pattern ⟨[("c", [Cell.str "ab"])]⟩ "c" "AA" "xy"
      = Except.ok ⟨[("c", [Cell.str "xy"])]⟩
  ∧ replace_values_by_pattern ⟨[("c", [Cell.str "xy"])]⟩ "c" "AA" "xy"
      = Except.ok ⟨[("c", [Cell.str "xy"])]⟩ :=
  ⟨by decide, by rfl, by rfl⟩

/-- C9 amended: for every table, existing column, target skeleton and
replacement value (the null sentinel included), applying
`replace_values_by_pattern` twice returns the same table as applying it
once — also when the replacement value maps back into the target
skeleton group. -/
theorem replace_idempotent (T : Table) (c s v : String) (cells : List Cell)
    (h : T.getCol c = some cells) :
    ∃ T1, replace_values_by_pattern T c s v = Except.ok T1
      ∧ replace_values_by_pattern T1 c s v = Except.ok T1 := by
  have h2 : lookupCol T.cols c = some cells := h
  set l1 := locSet cells (maskOfPattern cells s) (newCellOf v) with hl1
  refine ⟨T.setCol c l1, replace_eq_some T c s v cells h2, ?_⟩
  have hget : (T.setCol c l1).getCol c = some l1 := by
    rw [getCol_setCol, h]
    rfl
  have heq2 := replace_eq_some (T.setCol c l1) c s v l1 hget
  rw [heq2, setCol_setCol]
  have hfix : locSet l1 (maskOfPattern l1 s) (newCellOf v) = l1 := by
    rw [hl1, locSet_mask_eq, locSet_mask_eq,
      map_ite_idem (fun x => _generate_skeleton (some (pyStr x)) = s) (newCellOf v) cells]
  rw [hfix]

/-- Witness for the amended C9, in the edge case the original claim
called non-idempotent (the skeleton of `"xy"` is the target `"AA"`). -/
theorem replace_idempotent_wit :
    ∃ T1, replace_values_by_pattern ⟨[("c", [Cell.str "ab"])]⟩ "c" "AA" "xy" = Except.ok T1
      ∧ replace_values_by_pattern T1 "c" "AA" "xy" = Except.ok T1 :=
  replace_idempotent ⟨[("c", [Cell.str "ab"])]⟩ "c" "AA" "xy" [Cell.str "ab"] (by decide)

/-- C10: the reserved sentinel of `replace_values_by_pattern` is the
exact literal `"NULL_marker_internal"`: passing it nulls every cell of
the target group and leaves the rest alone, and no call of the
operation — with any replacement value — can introduce that literal as
a new cell of the column. -/
theorem replace_null_marker (T : Table) (c s : String) (cells : List Cell)
    (h : T.getCol c = some cells) :
    (∃ out outCells,
      replace_values_by_pattern T c s "NULL_marker_internal" = Except.ok out
      ∧ out.getCol c = some outCells
      ∧ ∀ i : Nat, outCells[i]? = (cells[i]?).map (fun x =>
          if _generate_skeleton (some (pyStr x)) = s then Cell.null else x))
  ∧ (∀ (v : String) (out2 : Table) (outCells2 : List Cell),
      replace_values_by_pattern T c s v = Except.ok out2 →
      out2.getCol c = some outCells2 →
      ∀ x ∈ outCells2, x = Cell.str "NULL_marker_internal" → x ∈ cells) := by
  have h2 : lookupCol T.cols c = some cells := h
  constructor
  · have heq := replace_eq_some T c s "NULL_marker_internal" cells h2
    refine ⟨_, locSet cells (maskOfPattern cells s) (newCellOf "NULL_marker_internal"), heq, ?_, ?_⟩
    · rw [getCol_setCol, h]
      rfl
    · intro i
      rw [locSet_mask_eq, List.getElem?_map]
      have hnc : newCellOf "NULL_marker_internal" = Cell.null := by decide
      rw [hnc]
  · intro v out2 outCells2 hrep hget2 x hx hxm
    rw [replace_eq_some T c s v cells h2] at hrep
    have hout : out2 = T.setCol c (locSet cells (maskOfPattern cells s) (newCellOf v)) :=
      (Except.ok.inj hrep).symm
    rw [hout, getCol_setCol, h] at hget2
    have hcells2 : outCells2 = locSet cells (maskOfPattern cells s) (newCellOf v) :=
      (Option.some.inj hget2).symm
    rw [hcells2, locSet_mask_eq] at hx
    rcases List.mem_map.mp hx with ⟨y, hy, hyx⟩
    by_cases hys : _generate_skeleton (some (pyStr y)) = s
    · rw [if_pos hys] at hyx
      have hnm : newCellOf v = Cell.str "NULL_marker_internal" := hyx.trans hxm
      exfalso
      by_cases hv : v = "NULL_marker_internal"
      · simp only [newCellOf, if_pos hv] at hnm
        exact Cell.noConfusion hnm
      · simp only [newCellOf, if_neg hv] at hnm
        exact hv (Cell.str.inj hnm)
    · rw [if_neg hys] at hyx
      exact hyx ▸ hy

/-- Witness for C10 at a concrete column containing the skeleton group. -/
theorem replace_null_marker_wit :
    (∃ out outCells,
      replace_values_by_pattern ⟨[("c", [Cell.str "ab", Cell.str "x1"])]⟩ "c" "AA" "NULL_marker_internal"
        = Except.ok out
      ∧ out.getCol "c" = some outCells
      ∧ ∀ i : Nat, outCells[i]? = ([Cell.str "ab", Cell.str "x1"][i]?).map (fun x =>
          if _generate_skeleton (some (pyStr x)) = "AA" then Cell.null else x))
  ∧ (∀ (v : String) (out2 : Table) (outCells2 : List Cell),
      replace_values_by_pattern ⟨[("c", [Cell.str "ab", Cell.str "x1"])]⟩ "c" "AA" v = Except.ok out2 →
      out2.getCol "c" = some outCells2 →
      ∀ x ∈ outCells2, x = Cell.str "NULL_marker_internal" → x ∈ [Cell.str "ab", Cell.str "x1"]) :=
  replace_null_marker ⟨[("c", [Cell.str "ab", Cell.str "x1"])]⟩ "c" "AA"
    [Cell.str "ab", Cell.str "x1"] (by decide)
